import Mathlib

/-!
Verification development for the ultimate-crud-app repository.

The repository is a demo application over the `ultimate-crud` package.  The
code present in the repository (Express middleware, auth routes, entity
descriptor lists, SQL schemas) is embedded directly from the source files.
The CRUD engine itself (registration, REST/GraphQL synthesis, executor) is
not part of the repository's source tree; where a property is decided by
that engine, the relevant operation is modelled from the specification and
each such definition is marked `Modelled from the spec:` in its doc comment.

Rows and request bodies are embedded as association lists from field names
to string values; machine-level concerns (JSON numbers, timestamps) are
abstracted to strings where the properties under study do not depend on
them.
-/

namespace UCrud

/-- A database row / JSON object body: an association list from field names
to string values; the first binding for a field is its value. -/
abbrev Row := List (String × String)

/-- Field lookup in a row (first binding wins, as in a JS object). -/
def lookupField (r : Row) (f : String) : Option String :=
  (r.find? (fun p => p.1 = f)).map (fun p => p.2)

/-! ## Security middleware (src middleware, `requireAuthForAPI`)

Embedded from the repository's security middleware: the decision of whether
an incoming request is passed to JWT authentication or through to the next
handler, as a function of the request path and method. -/

/-- The middleware's `isPublicRoute` computation: root, `/auth` and
`/auth/...`, and the exact paths `/health`, `/docs`, `/api-docs`. -/
def isPublicRoute (path : String) : Bool :=
  path = "/" || (path.startsWith "/auth/" || path = "/auth") ||
    (path = "/health" || path = "/docs" || path = "/api-docs")

/-- Outcome of the security middleware for one request: either invoke JWT
authentication or pass through to the next handler. -/
inductive AuthAction
  | authenticate
  | passThrough
deriving DecidableEq, Repr

/-- `requireAuthForAPI` from the security middleware: public routes pass
through; `GET /graphql` passes through; `/api...` and `/graphql` are
authenticated; everything else passes through. -/
def requireAuthForAPI (path method : String) : AuthAction :=
  if isPublicRoute path then .passThrough
  else if path = "/graphql" && method = "GET" then .passThrough
  else if path.startsWith "/api" || path = "/graphql" then .authenticate
  else .passThrough

/-! ## Auth routes (src routes, `POST /auth/register`) -/

/-- The parsed body of a registration request; `none` models an absent
(undefined) JSON field. -/
structure RegisterRequest where
  username : Option String
  email : Option String
  password : Option String
  role : Option String
deriving DecidableEq, Repr

/-- A stored user row as inserted by the register route. -/
structure UserRow where
  username : String
  email : String
  password : String
  role : String
deriving DecidableEq, Repr

/-- Outcome of the register route: a 400 validation failure, a 409
conflict, or a 201 creation carrying the inserted row. -/
inductive RegisterOutcome
  | badRequest (status : Nat)
  | conflict (status : Nat)
  | created (status : Nat) (user : UserRow)
deriving DecidableEq, Repr

/-- JS truthiness of an optional string field: absent, and the empty
string, are falsy. -/
def present : Option String → Bool
  | none => false
  | some s => !(s = "")

/-- The role stored by the register route: the destructuring default
`role = 'user'` for an absent field, then `role === 'admin' ? 'user' :
role` before the insert. -/
def storedRole (requested : Option String) : String :=
  let role := requested.getD "user"
  if role = "admin" then "user" else role

/-- The register route handler, embedded from the auth routes: required
fields, password length check, existing-user conflict check, then insert
with the role replacement.  `hashed` stands for the bcrypt hash of the
password. -/
def registerUser (existing : List UserRow) (req : RegisterRequest)
    (hashed : String) : RegisterOutcome :=
  if !(present req.username && present req.email && present req.password) then
    .badRequest 400
  else
    let u := req.username.getD ""
    let e := req.email.getD ""
    let p := req.password.getD ""
    if p.length < 8 then .badRequest 400
    else if existing.any (fun x => x.username = u || x.email = e) then
      .conflict 409
    else
      .created 201 { username := u, email := e, password := hashed,
                     role := storedRole req.role }

/-! ### Theorems for C10 and C9 -/

/-- C10: the security middleware invokes JWT authentication exactly when
the path starts with `/api` or equals `/graphql`, the path is not one of
the public routes (`/`, `/auth`, `/auth/...`, `/health`, `/docs`,
`/api-docs`), and the request is not a `GET` of `/graphql` (GraphQL
introspection over GET is passed through without a token). -/
theorem requireAuthForAPI_characterization (path method : String) :
    requireAuthForAPI path method = .authenticate ↔
      ((path.startsWith "/api" = true ∨ path = "/graphql") ∧
        ¬(path = "/" ∨ path = "/auth" ∨ path.startsWith "/auth/" = true ∨
          path = "/health" ∨ path = "/docs" ∨ path = "/api-docs") ∧
        ¬(path = "/graphql" ∧ method = "GET")) := by
  unfold requireAuthForAPI isPublicRoute
  by_cases h1 : path = "/" <;>
    by_cases h2 : path.startsWith "/auth/" <;>
      by_cases h3 : path = "/auth" <;>
        by_cases h4 : path = "/health" <;>
          by_cases h5 : path = "/docs" <;>
            by_cases h6 : path = "/api-docs" <;>
              by_cases h7 : path = "/graphql" <;>
                by_cases h8 : method = "GET" <;>
                  by_cases h9 : path.startsWith "/api" <;>
                    simp_all

/-- C9: every user row inserted by the register route has a role different
from `admin`: a requested role of `admin` is replaced by `user` before the
insert, any other requested role is stored as given, and an absent role
defaults to `user`. -/
theorem registerUser_never_admin (existing : List UserRow)
    (req : RegisterRequest) (hashed : String) (status : Nat) (user : UserRow)
    (h : registerUser existing req hashed = .created status user) :
    user.role ≠ "admin" ∧ user.role = storedRole req.role ∧
      (req.role = some "admin" → user.role = "user") ∧
      (∀ r, req.role = some r → r ≠ "admin" → user.role = r) ∧
      (req.role = none → user.role = "user") := by
  have hrole : user.role = storedRole req.role := by
    simp only [registerUser] at h
    split at h
    · exact absurd h (by simp)
    · split at h
      · exact absurd h (by simp)
      · split at h
        · exact absurd h (by simp)
        · cases h; rfl
  refine ⟨?_, hrole, ?_, ?_, ?_⟩
  · rw [hrole]; unfold storedRole
    cases hr : req.role with
    | none => simp
    | some r =>
      simp only [Option.getD_some]
      split
      · simp
      · simpa using ‹¬ r = "admin"›
  · intro hr; rw [hrole, hr]; rfl
  · intro r hr hne; rw [hrole, hr]; unfold storedRole
    simpa using fun hc => absurd hc hne
  · intro hr; rw [hrole, hr]; rfl

/-- Witness for C9: a concrete registration requesting the `admin` role
succeeds and stores role `user`. -/
theorem registerUser_never_admin_witness :
    (registerUser [] ⟨some "alice", some "a@example.org", some "longpass1",
        some "admin"⟩ "h" = .created 201
        ⟨"alice", "a@example.org", "h", "user"⟩) ∧
      ("user" : String) ≠ "admin" := by
  refine ⟨by decide, ?_⟩
  have h := registerUser_never_admin []
    ⟨some "alice", some "a@example.org", some "longpass1", some "admin"⟩
    "h" 201 ⟨"alice", "a@example.org", "h", "user"⟩ (by decide)
  exact h.1

/-! ## Unique-field conflict detection on create

The conflict check itself runs inside the `ultimate-crud` package, which is
not part of this repository's source tree; it is modelled here from the
specification's validation-layer contract, with the entity descriptors'
`validation` blocks embedded from the repository. -/

/-- The `validation` block of an entity descriptor: the declared
`uniqueFields` list and the optional `conflictStatusCode`. -/
structure ValidationSpec where
  uniqueFields : List String
  conflictStatusCode : Option Nat
deriving DecidableEq, Repr

/-- The status code a conflict is reported with: the configured
`conflictStatusCode`, defaulting to 409 when unset. -/
def conflictCode (v : ValidationSpec) : Nat :=
  v.conflictStatusCode.getD 409

/-- Whether the payload collides with some existing row on field `f`:
the payload carries a value for `f` and some existing row has the same
value in `f`. -/
def collidesOn (rows : List Row) (payload : Row) (f : String) : Bool :=
  match lookupField payload f with
  | none => false
  | some v => rows.any (fun r => lookupField r f = some v)

/-- The colliding unique fields of a create payload against the current
rows: exactly the declared unique fields on which the payload collides. -/
def collidingFields (spec : ValidationSpec) (rows : List Row)
    (payload : Row) : List String :=
  spec.uniqueFields.filter (collidesOn rows payload)

/-- Result of a create: the new row list on success, or a conflict
carrying the status code and the colliding field names
(`details.fields`). -/
inductive CreateResult
  | created (rows : List Row)
  | conflict (status : Nat) (fields : List String)
deriving DecidableEq, Repr

/-- Modelled from the spec: the engine's create operation for a Table
entity with a declared `uniqueFields` list (the engine itself lives in the
external `ultimate-crud` package).  A create with no colliding unique
field appends the row; otherwise it fails with the configured conflict
status code and reports exactly the colliding fields. -/
def createRecord (spec : ValidationSpec) (rows : List Row)
    (payload : Row) : CreateResult :=
  if collidingFields spec rows payload = [] then
    .created (rows ++ [payload])
  else
    .conflict (conflictCode spec) (collidingFields spec rows payload)

theorem collidesOn_iff (rows : List Row) (payload : Row) (f : String) :
    collidesOn rows payload f = true ↔
      ∃ w, lookupField payload f = some w ∧
        ∃ r ∈ rows, lookupField r f = some w := by
  unfold collidesOn
  cases hv : lookupField payload f with
  | none => simp
  | some v =>
    simp only [List.any_eq_true, decide_eq_true_eq]
    constructor
    · rintro ⟨r, hr, hrf⟩; exact ⟨v, rfl, r, hr, hrf⟩
    · rintro ⟨w, hw, r, hr, hrf⟩
      cases hw; exact ⟨r, hr, hrf⟩

/-- C1: if a create succeeds on an entity with a declared unique field `f`
carrying value `v` in `f`, then a second create carrying the same value in
`f` fails with the entity's configured conflict status code (409 when
unset), and the reported `details.fields` are exactly the unique fields on
which the second payload collides with an existing row, `f` among them. -/
theorem create_unique_conflict (spec : ValidationSpec)
    (rows rows' : List Row) (p₁ p₂ : Row) (f v : String)
    (hf : f ∈ spec.uniqueFields)
    (h1 : createRecord spec rows p₁ = .created rows')
    (hv1 : lookupField p₁ f = some v)
    (hv2 : lookupField p₂ f = some v) :
    createRecord spec rows' p₂ =
        .conflict (conflictCode spec) (collidingFields spec rows' p₂) ∧
      conflictCode spec = spec.conflictStatusCode.getD 409 ∧
      f ∈ collidingFields spec rows' p₂ ∧
      ∀ g, g ∈ collidingFields spec rows' p₂ ↔
        g ∈ spec.uniqueFields ∧ ∃ w, lookupField p₂ g = some w ∧
          ∃ r ∈ rows', lookupField r g = some w := by
  have hrows' : rows' = rows ++ [p₁] := by
    unfold createRecord at h1
    split at h1
    · cases h1; rfl
    · exact absurd h1 (by simp)
  have hmem : p₁ ∈ rows' := by rw [hrows']; simp
  have hcoll : collidesOn rows' p₂ f = true := by
    rw [collidesOn_iff]
    exact ⟨v, hv2, p₁, hmem, hv1⟩
  have hfmem : f ∈ collidingFields spec rows' p₂ := by
    unfold collidingFields
    exact List.mem_filter.2 ⟨hf, hcoll⟩
  have hne : collidingFields spec rows' p₂ ≠ [] := by
    intro hnil; rw [hnil] at hfmem; exact absurd hfmem (by simp)
  refine ⟨?_, rfl, hfmem, ?_⟩
  · unfold createRecord
    split
    · exact absurd ‹collidingFields spec rows' p₂ = []› hne
    · rfl
  · intro g
    unfold collidingFields
    rw [List.mem_filter, collidesOn_iff]

/-- Witness for C1, Scenario A of the spec: with
`uniqueFields = [username, email]`, a first create with username `admin`
succeeds, and a second create with the same username and a different email
conflicts with status 409 and `details.fields = [username]`. -/
theorem create_unique_conflict_witness :
    (("username" : String) ∈ (["username", "email"] : List String)) ∧
      (createRecord ⟨["username", "email"], some 409⟩ []
          [("username", "admin"), ("email", "a@x.com")] =
        .created [[("username", "admin"), ("email", "a@x.com")]]) ∧
      (lookupField [("username", "admin"), ("email", "a@x.com")] "username" =
        some "admin") ∧
      (lookupField [("username", "admin"), ("email", "b@x.com")] "username" =
        some "admin") ∧
      (createRecord ⟨["username", "email"], some 409⟩
          [[("username", "admin"), ("email", "a@x.com")]]
          [("username", "admin"), ("email", "b@x.com")] =
        .conflict (conflictCode ⟨["username", "email"], some 409⟩)
          (collidingFields ⟨["username", "email"], some 409⟩
            [[("username", "admin"), ("email", "a@x.com")]]
            [("username", "admin"), ("email", "b@x.com")])) ∧
      (collidingFields ⟨["username", "email"], some 409⟩
          [[("username", "admin"), ("email", "a@x.com")]]
          [("username", "admin"), ("email", "b@x.com")] = ["username"]) ∧
      conflictCode ⟨["username", "email"], some 409⟩ = 409 := by
  have h := create_unique_conflict ⟨["username", "email"], some 409⟩
    [] [[("username", "admin"), ("email", "a@x.com")]]
    [("username", "admin"), ("email", "a@x.com")]
    [("username", "admin"), ("email", "b@x.com")]
    "username" "admin" (by decide) (by decide) (by decide) (by decide)
  exact ⟨by decide, by decide, by decide, by decide, h.1, by decide, by decide⟩

/-! ## Business-rule validation middleware (src middleware, `validateUserData`)

Embedded from the repository's validation middleware.  The middleware is
mounted on `/api/users` ahead of the CRUD handler (per the repository's
documented `app.use` pattern), so on a create request it runs before the
engine's unique-field conflict check and short-circuits with 400 when any
business rule fails. -/

/-- The blocked email domains of `validateEmailDomain`. -/
def blockedDomains : List String :=
  ["gmail.com", "tempmail.org", "10minutemail.com"]

/-- Split a character list at every occurrence of `sep`, as JS
`String.split` does (adjacent separators yield empty pieces). -/
def splitChar (sep : Char) : List Char → List (List Char)
  | [] => [[]]
  | c :: cs =>
    let r := splitChar sep cs
    if c = sep then [] :: r
    else
      match r with
      | [] => [[c]]
      | h :: t => (c :: h) :: t

/-- The `email.split('@')[1]` expression: the piece after the first `@`,
`none` when the address has no `@` (JS `undefined`, which is not in the
blocked list). -/
def emailDomain (email : String) : Option String :=
  match splitChar '@' email.toList with
  | _ :: d :: _ => some (String.mk d)
  | _ => none

/-- `validateEmailDomain`: the error message when the domain is blocked,
`none` when valid. -/
def validateEmailDomain (email : String) : Option String :=
  match emailDomain email with
  | some d =>
    if blockedDomains.contains d then
      some ("Email addresses from " ++ d ++ " are not allowed")
    else none
  | none => none

/-- `validateAge`: the error message for an out-of-range age, `none` when
valid. -/
def validateAge (age : Int) : Option String :=
  if age < 18 then some "Age must be at least 18 years old"
  else if age > 120 then some "Age must be less than 120 years"
  else none

/-- A character allowed by the `^[a-zA-Z0-9_]+$` username pattern. -/
def validUsernameChar (c : Char) : Bool :=
  c.isAlphanum || c = '_'

/-- `validateUsername`: the error message for a too-short or ill-formed
username, `none` when valid. -/
def validateUsername (username : String) : Option String :=
  if username.length < 3 then
    some "Username must be at least 3 characters long"
  else if !(username.toList.all validUsernameChar) then
    some "Username can only contain letters, numbers, and underscores"
  else none

/-- The `errors` array collected by `validateUserData` for one request
body, in the middleware's order: email domain, age range, username
format.  A field is only checked when present (truthy). -/
def userValidationErrors (email : Option String) (age : Option Int)
    (username : Option String) : List (String × String) :=
  (if present email then
    match validateEmailDomain (email.getD "") with
    | some m => [("email", m)]
    | none => []
  else []) ++
  (match age with
   | some a =>
     match validateAge a with
     | some m => [("age", m)]
     | none => []
   | none => []) ++
  (if present username then
    match validateUsername (username.getD "") with
    | some m => [("username", m)]
    | none => []
  else [])

/-- Outcome of an Express middleware: respond immediately (short-circuit)
or call `next()`. -/
inductive MiddlewareResult
  | respond (status : Nat) (validationErrors : List (String × String))
  | next
deriving DecidableEq, Repr

/-- `validateUserData`: on POST and PUT, collect the business-rule errors
and respond 400 if any; otherwise pass the request on. -/
def validateUserData (method : String) (email : Option String)
    (age : Option Int) (username : Option String) : MiddlewareResult :=
  if method = "POST" || method = "PUT" then
    let errors := userValidationErrors email age username
    if errors ≠ [] then .respond 400 errors else .next
  else .next

/-- The composed `POST /api/users` pipeline of the repository: the
business-rule middleware runs first; only if it calls `next()` does the
engine's create (with its unique-field conflict check, modelled from the
spec) run.  Returns the response status code. -/
def handleUsersPost (spec : ValidationSpec) (rows : List Row) (body : Row)
    (age : Option Int) : Nat :=
  match validateUserData "POST" (lookupField body "email") age
      (lookupField body "username") with
  | .respond status _ => status
  | .next =>
    match createRecord spec rows body with
    | .created _ => 201
    | .conflict code _ => code

/-! ### Theorems for C2 -/

/-- Counterexample to C2 as stated: a concrete create request on the
users entity in which validation finds both a uniqueness conflict (the
username `admin` already exists, `collidingFields = [username]`) and a
business-rule violation (a blocked gmail.com email).  The response status
is 400, not the entity's configured conflict status 409: the business-rule
middleware runs first and short-circuits, so the conflict status does not
take precedence. -/
theorem usersPost_both_violations_counterexample :
    (collidingFields ⟨["username", "email"], some 409⟩
        [[("username", "admin"), ("email", "a@x.com")]]
        [("username", "admin"), ("email", "b@gmail.com")] = ["username"]) ∧
      (userValidationErrors (some "b@gmail.com") none (some "admin") =
        [("email", "Email addresses from gmail.com are not allowed")]) ∧
      (handleUsersPost ⟨["username", "email"], some 409⟩
        [[("username", "admin"), ("email", "a@x.com")]]
        [("username", "admin"), ("email", "b@gmail.com")] none = 400) ∧
      conflictCode ⟨["username", "email"], some 409⟩ = 409 ∧
      (400 : Nat) ≠ 409 := by
  refine ⟨by decide, by decide, by decide, by decide, by decide⟩

/-- C2 amended: when a create request on the users entity exhibits both a
uniqueness conflict and at least one business-rule violation, the response
status is 400 — the business-rule middleware runs first (mounted ahead of
the CRUD handler) and short-circuits, so the 400 takes precedence over the
configured conflict status code. -/
theorem usersPost_both_violations_returns_400 (spec : ValidationSpec)
    (rows : List Row) (body : Row) (age : Option Int)
    (hconf : collidingFields spec rows body ≠ [])
    (hbiz : userValidationErrors (lookupField body "email") age
        (lookupField body "username") ≠ []) :
    handleUsersPost spec rows body age = 400 := by
  have hmw : validateUserData "POST" (lookupField body "email") age
      (lookupField body "username") =
      .respond 400 (userValidationErrors (lookupField body "email") age
        (lookupField body "username")) := by
    simp [validateUserData, hbiz]
  unfold handleUsersPost
  rw [hmw]

/-- Witness for the amended C2: the concrete request with both kinds of
violation yields status 400 through the theorem. -/
theorem usersPost_both_violations_returns_400_witness :
    (collidingFields ⟨["username", "email"], some 409⟩
        [[("username", "admin"), ("email", "a@x.com")]]
        [("username", "admin"), ("email", "b@gmail.com")] ≠ []) ∧
      (userValidationErrors
          (lookupField [("username", "admin"), ("email", "b@gmail.com")]
            "email") none
          (lookupField [("username", "admin"), ("email", "b@gmail.com")]
            "username") ≠ []) ∧
      handleUsersPost ⟨["username", "email"], some 409⟩
        [[("username", "admin"), ("email", "a@x.com")]]
        [("username", "admin"), ("email", "b@gmail.com")] none = 400 := by
  refine ⟨by decide, by decide, ?_⟩
  exact usersPost_both_violations_returns_400
    ⟨["username", "email"], some 409⟩
    [[("username", "admin"), ("email", "a@x.com")]]
    [("username", "admin"), ("email", "b@gmail.com")] none
    (by decide) (by decide)

/-! ## Entity descriptors and registration

The descriptor shape is embedded from the repository's entity lists
(`name`, `type`, `route`, `procedure`, `associations`).  Registration
itself runs inside the external package and is modelled from the spec. -/

/-- The `type` field of an entity descriptor. -/
inductive EntityKind
  | table
  | view
  | query
  | procedure
deriving DecidableEq, Repr

/-- The `type` field of an association entry. -/
inductive AssocType
  | belongsTo
  | hasMany
  | hasOne
  | belongsToMany
deriving DecidableEq, Repr

/-- One entry of an entity's `associations` list, as declared in the
repository's entity files. -/
structure AssociationSpec where
  type : AssocType
  target : String
  foreignKey : String
  asName : String
deriving DecidableEq, Repr

/-- A declarative entity descriptor, as declared in the repository's
entity files. -/
structure EntityDescriptor where
  name : String
  kind : EntityKind
  route : String
  procedureName : Option String := none
  associations : List AssociationSpec := []
deriving DecidableEq, Repr

/-- Startup-fatal registration errors. -/
inductive RegError
  | missingProcedureName (entity : String)
  | unknownAssociationTarget (entity target : String)
deriving DecidableEq, Repr

/-- A registered entity: its descriptor and, for Procedure kinds, the
routine name the executor will actually call. -/
structure RegisteredEntity where
  descriptor : EntityDescriptor
  callable : Option String
deriving DecidableEq, Repr

/-- Modelled from the spec: registration of a single descriptor.  A
Procedure descriptor with no explicit `procedure` property fails with
`MissingProcedureNameError`; when present, the explicit property — never
the descriptor's `name` field in its place — becomes the callable routine
name. -/
def registerEntity (d : EntityDescriptor) : Except RegError RegisteredEntity :=
  match d.kind with
  | .procedure =>
    match d.procedureName with
    | none => .error (.missingProcedureName d.name)
    | some p => .ok ⟨d, some p⟩
  | _ => .ok ⟨d, none⟩

/-- Modelled from the spec: startup registers every descriptor in order
and aborts on the first failure. -/
def registerAll : List EntityDescriptor → Except RegError (List RegisteredEntity)
  | [] => .ok []
  | d :: ds =>
    match registerEntity d with
    | .error e => .error e
    | .ok r =>
      match registerAll ds with
      | .error e => .error e
      | .ok rs => .ok (r :: rs)

/-- Modelled from the spec: the routes served after startup — available
only when every registration succeeded (a startup-fatal error means the
process never starts serving). -/
def startupRoutes (ds : List EntityDescriptor) : Except RegError (List String) :=
  match registerAll ds with
  | .ok rs => .ok (rs.map (fun r => r.descriptor.route))
  | .error e => .error e

theorem registerAll_ok_mem {ds : List EntityDescriptor}
    {rs : List RegisteredEntity} (h : registerAll ds = .ok rs)
    {d : EntityDescriptor} (hd : d ∈ ds) :
    ∃ r, registerEntity d = .ok r := by
  induction ds generalizing rs with
  | nil => cases hd
  | cons d' tl ih =>
    unfold registerAll at h
    cases hreg : registerEntity d' with
    | error e => rw [hreg] at h; exact absurd h (by simp)
    | ok r =>
      rw [hreg] at h
      cases htl : registerAll tl with
      | error e => rw [htl] at h; exact absurd h (by simp)
      | ok rs' =>
        rcases List.mem_cons.1 hd with rfl | hmem
        · exact ⟨r, hreg⟩
        · exact ih htl hmem

/-- C3: a Procedure descriptor with no explicit routine name fails
registration with `MissingProcedureNameError`, the startup containing it
never serves any route, and for every descriptor that does register, the
callable routine name is exactly the configured `procedure` property —
the descriptor's `name` field is never silently used in its place. -/
theorem procedure_without_name_fails (d : EntityDescriptor)
    (ds : List EntityDescriptor) (hmem : d ∈ ds) (hk : d.kind = .procedure)
    (hp : d.procedureName = none) :
    registerEntity d = .error (.missingProcedureName d.name) ∧
      (∀ routes, startupRoutes ds ≠ .ok routes) ∧
      (∀ e r, registerEntity e = .ok r → e.kind = .procedure →
        r.callable = e.procedureName) := by
  have hfail : registerEntity d = .error (.missingProcedureName d.name) := by
    unfold registerEntity
    rw [hk, hp]
  refine ⟨hfail, ?_, ?_⟩
  · intro routes hok
    unfold startupRoutes at hok
    cases hall : registerAll ds with
    | error e => rw [hall] at hok; exact absurd hok (by simp)
    | ok rs =>
      obtain ⟨r, hr⟩ := registerAll_ok_mem hall hmem
      rw [hfail] at hr
      exact absurd hr (by simp)
  · intro e r h hke
    unfold registerEntity at h
    rw [hke] at h
    cases hpe : e.procedureName with
    | none => rw [hpe] at h; exact absurd h (by simp)
    | some p => rw [hpe] at h; cases h; rfl

/-- The repository's `user_summary` procedure entity with the explicit
`procedure` property omitted (the failure configuration of Scenario D). -/
def userSummaryNoProc : EntityDescriptor :=
  { name := "user_summary", kind := .procedure, route := "/api/user-summary" }

/-- Witness for C3: the concrete mis-configured procedure entity fails
registration and its startup serves no routes. -/
theorem procedure_without_name_fails_witness :
    (userSummaryNoProc ∈ [userSummaryNoProc]) ∧
      registerEntity userSummaryNoProc =
        .error (.missingProcedureName "user_summary") ∧
      ∀ routes, startupRoutes [userSummaryNoProc] ≠ .ok routes := by
  have h := procedure_without_name_fails userSummaryNoProc [userSummaryNoProc]
    (by decide) (by decide) (by decide)
  exact ⟨by decide, h.1, h.2.1⟩

/-! ## GraphQL surface generation

Modelled from the spec: the generator builds query and mutation fields
only for Table-kind entities; View, Query and Procedure entities are
deliberately absent from the schema. -/

/-- A GraphQL schema field: its name and the registered entity it serves. -/
structure GqlField where
  field : String
  owner : String
deriving DecidableEq, Repr

/-- Modelled from the spec: the query fields generated for one entity —
the single and collection queries for a Table, nothing otherwise. -/
def queryFieldsFor (d : EntityDescriptor) : List GqlField :=
  match d.kind with
  | .table => [⟨d.name, d.name⟩, ⟨d.name ++ "List", d.name⟩]
  | _ => []

/-- Modelled from the spec: the mutation fields generated for one entity —
create/update/delete for a Table, nothing otherwise. -/
def mutationFieldsFor (d : EntityDescriptor) : List GqlField :=
  match d.kind with
  | .table =>
    [⟨"create" ++ d.name.capitalize, d.name⟩,
     ⟨"update" ++ d.name.capitalize, d.name⟩,
     ⟨"delete" ++ d.name.capitalize, d.name⟩]
  | _ => []

/-- Modelled from the spec: all query fields of the generated schema. -/
def graphqlQueryFields (ds : List EntityDescriptor) : List GqlField :=
  ds.flatMap queryFieldsFor

/-- Modelled from the spec: all mutation fields of the generated schema. -/
def graphqlMutationFields (ds : List EntityDescriptor) : List GqlField :=
  ds.flatMap mutationFieldsFor

theorem queryFieldsFor_owner {d : EntityDescriptor} {f : GqlField}
    (h : f ∈ queryFieldsFor d) : f.owner = d.name ∧ d.kind = .table := by
  unfold queryFieldsFor at h
  cases hk : d.kind <;> rw [hk] at h <;> simp at h
  rcases h with rfl | rfl <;> exact ⟨rfl, rfl⟩

theorem mutationFieldsFor_owner {d : EntityDescriptor} {f : GqlField}
    (h : f ∈ mutationFieldsFor d) : f.owner = d.name ∧ d.kind = .table := by
  unfold mutationFieldsFor at h
  cases hk : d.kind <;> rw [hk] at h <;> simp at h
  rcases h with rfl | rfl | rfl <;> exact ⟨rfl, rfl⟩

/-- C4: with globally unique entity names, the generated GraphQL schema
has no query or mutation field for a View-, Query- or Procedure-kind
entity, while every Table-kind entity gets its single and collection
queries and its create/update/delete mutations. -/
theorem graphql_table_entities_only (ds : List EntityDescriptor)
    (hnodup : (ds.map EntityDescriptor.name).Nodup)
    (d : EntityDescriptor) (hd : d ∈ ds) :
    (d.kind ≠ .table →
      (∀ f ∈ graphqlQueryFields ds, f.owner ≠ d.name) ∧
      (∀ f ∈ graphqlMutationFields ds, f.owner ≠ d.name)) ∧
    (d.kind = .table →
      ⟨d.name, d.name⟩ ∈ graphqlQueryFields ds ∧
      ⟨d.name ++ "List", d.name⟩ ∈ graphqlQueryFields ds ∧
      ⟨"create" ++ d.name.capitalize, d.name⟩ ∈ graphqlMutationFields ds ∧
      ⟨"update" ++ d.name.capitalize, d.name⟩ ∈ graphqlMutationFields ds ∧
      ⟨"delete" ++ d.name.capitalize, d.name⟩ ∈ graphqlMutationFields ds) := by
  have hinj := List.inj_on_of_nodup_map hnodup
  constructor
  · intro hnt
    constructor
    · intro f hf hown
      obtain ⟨e, he, hfe⟩ := List.mem_flatMap.1 hf
      obtain ⟨howner, htab⟩ := queryFieldsFor_owner hfe
      have : e = d := hinj he hd (by rw [howner] at hown; exact hown)
      rw [this] at htab
      exact hnt htab
    · intro f hf hown
      obtain ⟨e, he, hfe⟩ := List.mem_flatMap.1 hf
      obtain ⟨howner, htab⟩ := mutationFieldsFor_owner hfe
      have : e = d := hinj he hd (by rw [howner] at hown; exact hown)
      rw [this] at htab
      exact hnt htab
  · intro htab
    have hq : queryFieldsFor d = [⟨d.name, d.name⟩, ⟨d.name ++ "List", d.name⟩] := by
      unfold queryFieldsFor; rw [htab]
    have hm : mutationFieldsFor d =
        [⟨"create" ++ d.name.capitalize, d.name⟩,
         ⟨"update" ++ d.name.capitalize, d.name⟩,
         ⟨"delete" ++ d.name.capitalize, d.name⟩] := by
      unfold mutationFieldsFor; rw [htab]
    refine ⟨?_, ?_, ?_, ?_, ?_⟩ <;>
      refine List.mem_flatMap.2 ⟨d, hd, ?_⟩ <;> simp [hq, hm]

/-- The repository's `users` table entity (name and kind as declared). -/
def usersTableDesc : EntityDescriptor :=
  { name := "users", kind := .table, route := "/api/users" }

/-- The repository's `post_stats` view entity (name and kind as
declared). -/
def postStatsViewDesc : EntityDescriptor :=
  { name := "post_stats", kind := .view, route := "/api/post-stats" }

/-- Witness for C4: in a registry with the `users` table and the
`post_stats` view, the view owns no schema field and the table owns its
five fields. -/
theorem graphql_table_entities_only_witness :
    (([usersTableDesc, postStatsViewDesc].map EntityDescriptor.name).Nodup ∧
      postStatsViewDesc ∈ [usersTableDesc, postStatsViewDesc] ∧
      postStatsViewDesc.kind ≠ .table) ∧
      (∀ f ∈ graphqlQueryFields [usersTableDesc, postStatsViewDesc],
        f.owner ≠ postStatsViewDesc.name) ∧
      (∀ f ∈ graphqlMutationFields [usersTableDesc, postStatsViewDesc],
        f.owner ≠ postStatsViewDesc.name) := by
  have h := graphql_table_entities_only [usersTableDesc, postStatsViewDesc]
    (by decide) postStatsViewDesc (by decide)
  exact ⟨⟨by decide, by decide, by decide⟩, (h.1 (by decide)).1, (h.1 (by decide)).2⟩

/-! ## Table executor: create, get, and compound keys

Modelled from the spec: the executor's row-level operations for Table
entities.  A create appends the payload row extended with the
server-assigned fields (primary key when absent, column defaults and
timestamps for columns the payload leaves out); a get by id returns the
first row whose primary-key value matches. -/

/-- Introspected table metadata relevant here: the primary-key column and
the server-assigned default columns (defaults and timestamps). -/
structure TableMeta where
  pkCol : String
  defaults : List (String × String)
deriving DecidableEq, Repr

/-- The executor's per-table state: the stored rows and the next
auto-assigned id. -/
structure TableState where
  rows : List Row
  nextId : Nat
deriving DecidableEq, Repr

/-- Modelled from the spec: the server-assigned fields of a create — the
auto-assigned primary key when the payload has none, and every default
column the payload leaves out. -/
def serverAssigned (m : TableMeta) (st : TableState) (p : Row) : Row :=
  (if (lookupField p m.pkCol).isNone then [(m.pkCol, toString st.nextId)]
   else []) ++
    m.defaults.filter (fun d => (lookupField p d.1).isNone)

/-- Modelled from the spec: the executor's create for a Table entity —
rejected (`none`) on a unique-field conflict, otherwise the stored row is
the payload extended with the server-assigned fields. -/
def createRow (spec : ValidationSpec) (m : TableMeta) (st : TableState)
    (p : Row) : Option (TableState × Row) :=
  if collidingFields spec st.rows p = [] then
    some ({ rows := st.rows ++ [p ++ serverAssigned m st p],
            nextId := st.nextId + 1 },
          p ++ serverAssigned m st p)
  else none

/-- Modelled from the spec: `GET {route}/:id` — the first stored row whose
primary-key column holds the requested value. -/
def getById (m : TableMeta) (st : TableState) (k : String) : Option Row :=
  st.rows.find? (fun r => lookupField r m.pkCol = some k)

theorem lookupField_append_left {p : Row} {f : String} {v : String}
    (h : lookupField p f = some v) (q : Row) :
    lookupField (p ++ q) f = some v := by
  unfold lookupField at h ⊢
  rw [List.find?_append]
  cases hp : p.find? (fun x => x.1 = f) with
  | none => rw [hp] at h; exact absurd h (by simp)
  | some pair => rw [hp] at h; simp [hp, h]

/-- C5: read-your-writes round-trip.  If a create of payload `p` is
accepted, yielding stored row `r` under primary-key value `k` not present
before, then an immediate `GET {route}/:id` with `k` returns exactly `r`,
and `r` agrees with `p` on every field present in `p` (differing at most
in the server-assigned key and defaults). -/
theorem create_then_get_roundtrip (spec : ValidationSpec) (m : TableMeta)
    (st st' : TableState) (p r : Row) (k : String)
    (hc : createRow spec m st p = some (st', r))
    (hk : lookupField r m.pkCol = some k)
    (hfresh : ∀ x ∈ st.rows, lookupField x m.pkCol ≠ some k) :
    getById m st' k = some r ∧
      ∀ f v, lookupField p f = some v → lookupField r f = some v := by
  have hsplit : st'.rows = st.rows ++ [r] ∧ r = p ++ serverAssigned m st p := by
    unfold createRow at hc
    split at hc
    · cases hc; exact ⟨rfl, rfl⟩
    · exact absurd hc (by simp)
  constructor
  · unfold getById
    rw [hsplit.1, List.find?_append]
    have hnone : st.rows.find?
        (fun x => decide (lookupField x m.pkCol = some k)) = none := by
      rw [List.find?_eq_none]
      intro x hx
      simpa using hfresh x hx
    rw [hnone]
    simp [hk]
  · intro f v hv
    rw [hsplit.2]
    exact lookupField_append_left hv _

/-- Witness for C5: creating `{username, email}` in an empty users table
assigns id `0`, and fetching id `0` returns the stored row, which carries
the payload's two fields unchanged. -/
theorem create_then_get_roundtrip_witness :
    (createRow ⟨["username", "email"], some 409⟩ ⟨"id", [("createdAt", "t0")]⟩
        ⟨[], 0⟩ [("username", "john_doe"), ("email", "john@example.com")] =
      some (⟨[[("username", "john_doe"), ("email", "john@example.com"),
               ("id", "0"), ("createdAt", "t0")]], 1⟩,
            [("username", "john_doe"), ("email", "john@example.com"),
             ("id", "0"), ("createdAt", "t0")])) ∧
      getById ⟨"id", [("createdAt", "t0")]⟩
          ⟨[[("username", "john_doe"), ("email", "john@example.com"),
             ("id", "0"), ("createdAt", "t0")]], 1⟩ "0" =
        some [("username", "john_doe"), ("email", "john@example.com"),
              ("id", "0"), ("createdAt", "t0")] ∧
      lookupField [("username", "john_doe"), ("email", "john@example.com"),
          ("id", "0"), ("createdAt", "t0")] "username" = some "john_doe" := by
  refine ⟨by decide, ?_, by decide⟩
  exact (create_then_get_roundtrip ⟨["username", "email"], some 409⟩
    ⟨"id", [("createdAt", "t0")]⟩ ⟨[], 0⟩
    ⟨[[("username", "john_doe"), ("email", "john@example.com"),
       ("id", "0"), ("createdAt", "t0")]], 1⟩
    [("username", "john_doe"), ("email", "john@example.com")]
    [("username", "john_doe"), ("email", "john@example.com"),
     ("id", "0"), ("createdAt", "t0")] "0"
    (by decide) (by decide) (by decide)).1

/-! ### Compound primary keys -/

/-- The ordered primary-key tuple of a row, in primary-key column order. -/
def pkTuple (pkCols : List String) (r : Row) : List (Option String) :=
  pkCols.map (lookupField r)

/-- Whether a row's primary-key tuple equals the requested ordered
composite key. -/
def matchesKey (pkCols ks : List String) (r : Row) : Bool :=
  pkTuple pkCols r = ks.map some

/-- Modelled from the spec: `GET {route}/:k1/:k2` for a compound-key
table — the rows whose primary-key tuple equals the ordered key. -/
def getByKey (pkCols : List String) (rows : List Row)
    (ks : List String) : List Row :=
  rows.filter (matchesKey pkCols ks)

/-- Modelled from the spec: update by composite key — only rows whose
primary-key tuple equals the ordered key receive the update fields. -/
def updateByKey (pkCols : List String) (rows : List Row) (ks : List String)
    (upd : Row) : List Row :=
  rows.map (fun r => if matchesKey pkCols ks r then upd ++ r else r)

/-- Modelled from the spec: delete by composite key — removes exactly the
rows whose primary-key tuple equals the ordered key. -/
def deleteByKey (pkCols : List String) (rows : List Row)
    (ks : List String) : List Row :=
  rows.filter (fun r => !(matchesKey pkCols ks r))

/-- C6: the composite-key operations act exactly on the row whose
primary-key tuple equals the ordered key `(k1, k2, ...)`: a get returns a
stored row iff its tuple matches and every returned row matches, a delete
removes a stored row iff its tuple matches, and an update rewrites a
stored row iff its tuple matches, leaving every other row unchanged. -/
theorem compound_key_exact (pkCols : List String) (rows : List Row)
    (ks : List String) (upd : Row) (r : Row) (hr : r ∈ rows) :
    (r ∈ getByKey pkCols rows ks ↔ pkTuple pkCols r = ks.map some) ∧
      (∀ x ∈ getByKey pkCols rows ks,
        x ∈ rows ∧ pkTuple pkCols x = ks.map some) ∧
      (r ∈ deleteByKey pkCols rows ks ↔ pkTuple pkCols r ≠ ks.map some) ∧
      (pkTuple pkCols r = ks.map some →
        upd ++ r ∈ updateByKey pkCols rows ks upd) ∧
      (pkTuple pkCols r ≠ ks.map some → r ∈ updateByKey pkCols rows ks upd) := by
  refine ⟨?_, ?_, ?_, ?_, ?_⟩
  · unfold getByKey
    rw [List.mem_filter]
    unfold matchesKey
    simp [hr]
  · intro x hx
    unfold getByKey at hx
    rw [List.mem_filter] at hx
    unfold matchesKey at hx
    exact ⟨hx.1, by simpa using hx.2⟩
  · unfold deleteByKey
    rw [List.mem_filter]
    unfold matchesKey
    simp [hr]
  · intro hmatch
    unfold updateByKey
    have : (if matchesKey pkCols ks r then upd ++ r else r) = upd ++ r := by
      unfold matchesKey
      rw [if_pos (by simpa using hmatch)]
    rw [← this]
    exact List.mem_map_of_mem _ hr
  · intro hmatch
    unfold updateByKey
    have : (if matchesKey pkCols ks r then upd ++ r else r) = r := by
      unfold matchesKey
      rw [if_neg (by simpa using hmatch)]
    rw [← this]
    exact List.mem_map_of_mem _ hr

/-- Witness for C6: in the `order_items` table with compound key
`(order_uuid, product_id)`, the key `(u1, 1)` selects exactly the first
item and not the second. -/
theorem compound_key_exact_witness :
    ([("order_uuid", "u1"), ("product_id", "1"), ("quantity", "2")] ∈
        ([[("order_uuid", "u1"), ("product_id", "1"), ("quantity", "2")],
          [("order_uuid", "u1"), ("product_id", "2"), ("quantity", "1")]] :
          List Row)) ∧
      ([("order_uuid", "u1"), ("product_id", "1"), ("quantity", "2")] ∈
        getByKey ["order_uuid", "product_id"]
          [[("order_uuid", "u1"), ("product_id", "1"), ("quantity", "2")],
           [("order_uuid", "u1"), ("product_id", "2"), ("quantity", "1")]]
          ["u1", "1"] ↔
        pkTuple ["order_uuid", "product_id"]
          [("order_uuid", "u1"), ("product_id", "1"), ("quantity", "2")] =
          (["u1", "1"].map some)) ∧
      getByKey ["order_uuid", "product_id"]
          [[("order_uuid", "u1"), ("product_id", "1"), ("quantity", "2")],
           [("order_uuid", "u1"), ("product_id", "2"), ("quantity", "1")]]
          ["u1", "1"] =
        [[("order_uuid", "u1"), ("product_id", "1"), ("quantity", "2")]] := by
  refine ⟨by decide, ?_, by decide⟩
  exact (compound_key_exact ["order_uuid", "product_id"]
    [[("order_uuid", "u1"), ("product_id", "1"), ("quantity", "2")],
     [("order_uuid", "u1"), ("product_id", "2"), ("quantity", "1")]]
    ["u1", "1"] []
    [("order_uuid", "u1"), ("product_id", "1"), ("quantity", "2")]
    (by decide)).1

/-! ## Transactional association replacement

Modelled from the spec: `replaceAssociated` for a belongsToMany relation
runs delete-all-links then insert-new-links inside one per-request
database transaction; a failure during insertion rolls the link set back
to its pre-request state. -/

/-- Modelled from the spec: sequential insertion of the new link rows,
starting from the post-delete link set; inserting a link fails when its
target id does not exist among the valid target rows. -/
def insertAllLinks (validTargets : List Nat) (links : List Nat) :
    List Nat → Except Unit (List Nat)
  | [] => .ok links
  | t :: ts =>
    if t ∈ validTargets then insertAllLinks validTargets (links ++ [t]) ts
    else .error ()

/-- Modelled from the spec: `replaceAssociated` under a per-request
transaction — delete all existing links, insert the new ones, commit the
result on success and restore the original link set on any failure. -/
def replaceAssociated (validTargets : List Nat) (links : List Nat)
    (newTargets : List Nat) : List Nat :=
  match insertAllLinks validTargets [] newTargets with
  | .ok newLinks => newLinks
  | .error _ => links

theorem insertAllLinks_ok (validTargets : List Nat) (acc : List Nat)
    (ts : List Nat) (h : ∀ t ∈ ts, t ∈ validTargets) :
    insertAllLinks validTargets acc ts = .ok (acc ++ ts) := by
  induction ts generalizing acc with
  | nil => simp [insertAllLinks]
  | cons t ts ih =>
    unfold insertAllLinks
    rw [if_pos (h t (by simp))]
    rw [ih (acc ++ [t]) (fun x hx => h x (by simp [hx]))]
    simp

theorem insertAllLinks_error (validTargets : List Nat) (acc : List Nat)
    (ts : List Nat) (h : ∃ t ∈ ts, t ∉ validTargets) :
    insertAllLinks validTargets acc ts = .error () := by
  induction ts generalizing acc with
  | nil => obtain ⟨t, ht, _⟩ := h; cases ht
  | cons t ts ih =>
    unfold insertAllLinks
    by_cases htv : t ∈ validTargets
    · rw [if_pos htv]
      obtain ⟨x, hx, hxv⟩ := h
      rcases List.mem_cons.1 hx with rfl | hx'
      · exact absurd htv hxv
      · exact ih _ ⟨x, hx', hxv⟩
    · rw [if_neg htv]

/-- C7: `replaceAssociated` is atomic.  Either the request fully succeeds
— the resulting link set is exactly the requested new target list, every
old link removed and every new link inserted (possible exactly when every
new target exists) — or the link set is exactly as it was before the
request; no intermediate state survives the request. -/
theorem replaceAssociated_atomic (validTargets links newTargets : List Nat) :
    (replaceAssociated validTargets links newTargets = newTargets ∧
      ∀ t ∈ newTargets, t ∈ validTargets) ∨
    (replaceAssociated validTargets links newTargets = links ∧
      ∃ t ∈ newTargets, t ∉ validTargets) := by
  by_cases hall : ∀ t ∈ newTargets, t ∈ validTargets
  · left
    refine ⟨?_, hall⟩
    unfold replaceAssociated
    rw [insertAllLinks_ok validTargets [] newTargets hall]
    simp
  · right
    push_neg at hall
    refine ⟨?_, hall⟩
    unfold replaceAssociated
    rw [insertAllLinks_error validTargets [] newTargets hall]

/-! ## Two-pass registration and declaration-order independence

Modelled from the spec: Pass 1 records all raw descriptors; Pass 2
resolves every association's target against the full recorded registry,
so a target declared after its referrer still resolves. -/

/-- Pass-1 registry lookup: the first recorded descriptor with the given
name. -/
def lookupEntity (ds : List EntityDescriptor) (n : String) :
    Option EntityDescriptor :=
  ds.find? (fun d => d.name = n)

/-- An association whose target reference has been resolved to a
registered descriptor. -/
structure ResolvedAssociation where
  spec : AssociationSpec
  target : EntityDescriptor
deriving DecidableEq, Repr

/-- A fully resolved registry entry. -/
structure ResolvedEntity where
  descriptor : EntityDescriptor
  resolved : List ResolvedAssociation
deriving DecidableEq, Repr

/-- Modelled from the spec: Pass-2 resolution of one association list
against a registry lookup; an unknown target is a startup-fatal error. -/
def resolveAssociations (registry : String → Option EntityDescriptor)
    (entity : String) : List AssociationSpec →
    Except RegError (List ResolvedAssociation)
  | [] => .ok []
  | a :: rest =>
    match registry a.target with
    | none => .error (.unknownAssociationTarget entity a.target)
    | some t =>
      match resolveAssociations registry entity rest with
      | .error e => .error e
      | .ok rs => .ok (⟨a, t⟩ :: rs)

/-- Modelled from the spec: Pass-2 resolution of one entity. -/
def resolveEntity (registry : String → Option EntityDescriptor)
    (d : EntityDescriptor) : Except RegError ResolvedEntity :=
  match resolveAssociations registry d.name d.associations with
  | .error e => .error e
  | .ok rs => .ok ⟨d, rs⟩

/-- Modelled from the spec: Pass 2 over a worklist, resolving against the
full Pass-1 registry `ds`. -/
def resolveAll (ds : List EntityDescriptor) :
    List EntityDescriptor → Except RegError (List ResolvedEntity)
  | [] => .ok []
  | d :: rest =>
    match resolveEntity (lookupEntity ds) d with
    | .error e => .error e
    | .ok r =>
      match resolveAll ds rest with
      | .error e => .error e
      | .ok rs => .ok (r :: rs)

/-- Modelled from the spec: the whole two-pass registration — Pass 1
records the descriptor list, Pass 2 resolves every entity against it. -/
def registerEntities (ds : List EntityDescriptor) :
    Except RegError (List ResolvedEntity) :=
  resolveAll ds ds

/-- The registry produced by registration, exposed through name lookup:
the resolution result for the named entity, `none` for unknown names. -/
def registryResolve (ds : List EntityDescriptor) (n : String) :
    Option (Except RegError ResolvedEntity) :=
  (lookupEntity ds n).map (resolveEntity (lookupEntity ds))

theorem lookupEntity_of_mem {ds : List EntityDescriptor}
    (hnodup : (ds.map EntityDescriptor.name).Nodup) {d : EntityDescriptor}
    (hmem : d ∈ ds) : lookupEntity ds d.name = some d := by
  induction ds with
  | nil => cases hmem
  | cons hd tl ih =>
    rw [List.map_cons, List.nodup_cons] at hnodup
    rcases List.mem_cons.1 hmem with rfl | hmem'
    · unfold lookupEntity
      rw [List.find?_cons_of_pos _ (by simp)]
    · have hne : ¬(hd.name = d.name) := by
        intro hc
        exact hnodup.1 (hc ▸ List.mem_map_of_mem EntityDescriptor.name hmem')
      unfold lookupEntity
      rw [List.find?_cons_of_neg _ (by simpa using hne)]
      exact ih hnodup.2 hmem'

theorem lookupEntity_perm {ds ds' : List EntityDescriptor}
    (hperm : ds.Perm ds')
    (hnodup : (ds.map EntityDescriptor.name).Nodup) (n : String) :
    lookupEntity ds n = lookupEntity ds' n := by
  have hnodup' : (ds'.map EntityDescriptor.name).Nodup :=
    ((hperm.map EntityDescriptor.name).nodup_iff).1 hnodup
  cases h : lookupEntity ds n with
  | some d =>
    have hmem : d ∈ ds := List.mem_of_find?_eq_some h
    have hname : d.name = n := by simpa using List.find?_some h
    have hmem' : d ∈ ds' := hperm.mem_iff.1 hmem
    rw [← hname, lookupEntity_of_mem hnodup' hmem']
  | none =>
    symm
    unfold lookupEntity at h ⊢
    rw [List.find?_eq_none] at h ⊢
    intro x hx
    exact h x (hperm.mem_iff.2 hx)

theorem resolveAssociations_ok {registry : String → Option EntityDescriptor}
    {entity : String} {l : List AssociationSpec}
    (h : ∀ a ∈ l, ∃ t, registry a.target = some t) :
    ∃ rs, resolveAssociations registry entity l = .ok rs := by
  induction l with
  | nil => exact ⟨[], rfl⟩
  | cons a rest ih =>
    obtain ⟨t, ht⟩ := h a (by simp)
    obtain ⟨rs, hrs⟩ := ih (fun x hx => h x (by simp [hx]))
    refine ⟨⟨a, t⟩ :: rs, ?_⟩
    unfold resolveAssociations
    rw [ht, hrs]

theorem resolveEntity_ok {registry : String → Option EntityDescriptor}
    {d : EntityDescriptor}
    (h : ∀ a ∈ d.associations, ∃ t, registry a.target = some t) :
    ∃ r, resolveEntity registry d = .ok r := by
  obtain ⟨rs, hrs⟩ := resolveAssociations_ok h
  exact ⟨⟨d, rs⟩, by unfold resolveEntity; rw [hrs]⟩

theorem resolveAll_ok {ds : List EntityDescriptor}
    {l : List EntityDescriptor}
    (h : ∀ d ∈ l, ∃ r, resolveEntity (lookupEntity ds) d = .ok r) :
    ∃ rs, resolveAll ds l = .ok rs := by
  induction l with
  | nil => exact ⟨[], rfl⟩
  | cons d rest ih =>
    obtain ⟨r, hr⟩ := h d (by simp)
    obtain ⟨rs, hrs⟩ := ih (fun x hx => h x (by simp [hx]))
    refine ⟨r :: rs, ?_⟩
    unfold resolveAll
    rw [hr, hrs]

/-- C8: registration is declaration-order independent.  For any descriptor
list with globally unique names in which every association's target names
some listed entity, two-pass registration succeeds, it succeeds for any
permutation of the list, and both orders produce the same registry (the
same resolution result for every name) — in particular an entity may
associate to a target declared after it. -/
theorem two_pass_order_independent (ds ds' : List EntityDescriptor)
    (hperm : ds.Perm ds')
    (hnodup : (ds.map EntityDescriptor.name).Nodup)
    (hclosed : ∀ d ∈ ds, ∀ a ∈ d.associations, ∃ t ∈ ds, t.name = a.target) :
    (∃ rs, registerEntities ds = .ok rs) ∧
      (∃ rs, registerEntities ds' = .ok rs) ∧
      ∀ n, registryResolve ds n = registryResolve ds' n := by
  have hlook : ∀ n, lookupEntity ds n = lookupEntity ds' n :=
    lookupEntity_perm hperm hnodup
  have hfun : lookupEntity ds = lookupEntity ds' := funext hlook
  have hres : ∀ d ∈ ds, ∃ r, resolveEntity (lookupEntity ds) d = .ok r := by
    intro d hd
    refine resolveEntity_ok (fun a ha => ?_)
    obtain ⟨t, ht, hname⟩ := hclosed d hd a ha
    exact ⟨t, by rw [← hname]; exact lookupEntity_of_mem hnodup ht⟩
  refine ⟨?_, ?_, ?_⟩
  · exact resolveAll_ok hres
  · refine resolveAll_ok (fun d hd => ?_)
    rw [← hfun]
    exact hres d (hperm.mem_iff.2 hd)
  · intro n
    unfold registryResolve
    rw [hlook n, hfun]

/-- The `posts` entity declared before its association target `users`
(the declaration order that would fail a single-pass resolver). -/
def postsDesc : EntityDescriptor :=
  { name := "posts", kind := .table, route := "/api/posts",
    associations := [⟨.belongsTo, "users", "userId", "author"⟩] }

/-- The `users` entity, declared after `posts` in the witness order. -/
def usersDesc : EntityDescriptor :=
  { name := "users", kind := .table, route := "/api/users" }

/-- Witness for C8: `posts` (associating to `users`) declared before
`users` registers successfully, as does the reversed order, and both
orders give the same registry. -/
theorem two_pass_order_independent_witness :
    (([postsDesc, usersDesc] : List EntityDescriptor).Perm
        [usersDesc, postsDesc] ∧
      (([postsDesc, usersDesc].map EntityDescriptor.name).Nodup) ∧
      (∀ d ∈ [postsDesc, usersDesc], ∀ a ∈ d.associations,
        ∃ t ∈ [postsDesc, usersDesc], t.name = a.target)) ∧
      (∃ rs, registerEntities [postsDesc, usersDesc] = .ok rs) ∧
      (∃ rs, registerEntities [usersDesc, postsDesc] = .ok rs) ∧
      ∀ n, registryResolve [postsDesc, usersDesc] n =
        registryResolve [usersDesc, postsDesc] n := by
  have hperm : ([postsDesc, usersDesc] : List EntityDescriptor).Perm
      [usersDesc, postsDesc] := List.Perm.swap usersDesc postsDesc []
  have h := two_pass_order_independent [postsDesc, usersDesc]
    [usersDesc, postsDesc] hperm (by decide) (by decide)
  exact ⟨⟨hperm, by decide, by decide⟩, h.1, h.2.1, h.2.2⟩

end UCrud
